import Mathlib

/-!
Shallow embedding of the GHAS issue-ops enablement helpers
(reference resolution, instance routing, committer analysis and the
license planner) together with proofs about the behaviour of the
embedded functions.

External effects are modelled as explicit oracles:
the organization listing endpoint, the commit listing endpoint and the
enterprise billing endpoint are parameters of the embedded functions,
and the environment is a partial map from variable names to values.
JavaScript strings are Lean strings; the JS URL constructor is modelled
for the scheme://host/path grammar the workflow handles; JS
toLowerCase is modelled as per-character ASCII lowercasing.
-/

namespace GhasOps

/-! ## JS string primitives -/

/-- Model of the JS String.prototype.split on the slash character,
acting on a list of characters. -/
def splitOnSlash : List Char → List (List Char)
  | [] => [[]]
  | c :: cs =>
    if c = '/' then [] :: splitOnSlash cs
    else
      match splitOnSlash cs with
      | [] => [[c]]
      | h :: t => (c :: h) :: t

/-- Model of the JS replace of one leading slash, as used on pathnames. -/
def stripLeadingSlash : List Char → List Char
  | '/' :: t => t
  | l => l

/-- Model of adding an element to a JS Set (insertion order kept,
duplicates ignored), with the Set read back as an array. -/
def insertUnique (l : List String) (x : String) : List String :=
  if x ∈ l then l else l ++ [x]

/-- Model of the JS toLowerCase used to normalize contributor emails:
per-character ASCII lowercasing. -/
def normalizeId (s : String) : String := ⟨s.data.map Char.toLower⟩

/-- Insert the normalized form of one raw email into an identity set,
as the source does with committers.add(email.toLowerCase()). -/
def addIdentity (acc : List String) (e : String) : List String :=
  insertUnique acc (normalizeId e)

/-- The deduplicated, normalized identity set built from a list of raw
emails, in first-seen order, as a JS Set built by repeated add. -/
def identitySetOf (emails : List String) : List String :=
  emails.foldl addIdentity []

/-! ## The JS URL constructor, for the URLs the workflow handles -/

/-- The two observable parts of a parsed URL that the helpers read. -/
structure JsUrl where
  hostname : String
  pathname : String
deriving DecidableEq, Repr

/-- Model of new URL(s) restricted to the http(s)://host/path grammar of
the repository and organization references the workflow receives; any
string outside that grammar is treated as a parse failure (the JS
constructor throwing). The pathname is slash-prefixed, and a bare host
gets pathname "/", as in JS. -/
def parseUrl (s : String) : Option JsUrl :=
  let afterScheme : Option (List Char) :=
    if ("https://".data).isPrefixOf s.data then some (s.data.drop 8)
    else if ("http://".data).isPrefixOf s.data then some (s.data.drop 7)
    else none
  match afterScheme with
  | none => none
  | some body =>
    let host := body.takeWhile (fun c => c != '/')
    let rest := body.drop host.length
    if host.isEmpty then none
    else some ⟨⟨host⟩, if rest.isEmpty then "/" else ⟨rest⟩⟩

/-- The non-empty path segments of a parsed URL:
url.pathname.split(slash).filter(Boolean) in the source. -/
def pathSegments (u : JsUrl) : List (List Char) :=
  (splitOnSlash u.pathname.data).filter (fun l => !l.isEmpty)

/-- The path parts used by fetchRepoCommitters:
url.pathname.replace of the leading slash, then split on slash,
with no filtering of empty parts. -/
def repoPathParts (u : JsUrl) : List (List Char) :=
  splitOnSlash (stripLeadingSlash u.pathname.data)

/-- isOrganizationUrl from the source: a URL whose pathname has exactly
one non-empty segment; parse failures are caught and give false. -/
def isOrganizationUrl (url : String) : Bool :=
  match parseUrl url with
  | none => false
  | some u => (pathSegments u).length == 1

/-! ## Committer analyzer -/

/-- The email fields that fetchRepoCommitters reads off one commit:
commit.commit.author.email and commit.commit.committer.email, each of
which may be absent. -/
structure CommitInfo where
  authorEmail : Option String
  committerEmail : Option String
deriving DecidableEq, Repr

/-- Oracle for the commit listing endpoint: hostname, org, repo and
token to the command outcome. An error is the gh invocation throwing
(404, 403 or any transport failure); ok none is a response that is not
a JSON array; ok some is the parsed commit list. -/
abbrev CommitApi :=
  String → String → String → String → Except Unit (Option (List CommitInfo))

/-- Add the author and committer emails of one commit to the identity
set, in source order, lowercasing each. -/
def addCommitEmails (acc : List String) (c : CommitInfo) : List String :=
  let acc1 :=
    match c.authorEmail with
    | some e => addIdentity acc e
    | none => acc
  match c.committerEmail with
  | some e => addIdentity acc1 e
  | none => acc1

/-- fetchRepoCommitters from the source: parse the repository URL,
require at least two path parts, list the commits and return the
deduplicated lowercased emails. Every failure path returns the empty
list. -/
def fetchRepoCommitters (api : CommitApi) (repoUrl : String) (token : String) :
    List String :=
  match parseUrl repoUrl with
  | none => []
  | some u =>
    match repoPathParts u with
    | org :: repo :: _ =>
      match api u.hostname ⟨org⟩ ⟨repo⟩ token with
      | .error _ => []
      | .ok none => []
      | .ok (some commits) => commits.foldl addCommitEmails []
    | _ => []

/-- One step of the getAllUniqueCommitters loop over repositories:
resolve the hostname, look up its token, skip the repository when the
token is missing or empty, and otherwise union in the committers of the
repository. -/
def gacStep (api : CommitApi) (tokensByHostname : String → Option String)
    (acc : List String) (repoUrl : String) : List String :=
  match parseUrl repoUrl with
  | none => acc
  | some u =>
    match tokensByHostname u.hostname with
    | none => acc
    | some t =>
      if t.isEmpty then acc
      else (fetchRepoCommitters api repoUrl t).foldl insertUnique acc

/-- getAllUniqueCommitters from the source: the union over the
repositories of their committer sets, with per-repository failures
absorbed into empty contributions. -/
def getAllUniqueCommitters (api : CommitApi) (repositories : List String)
    (tokensByHostname : String → Option String) : List String :=
  repositories.foldl (gacStep api tokensByHostname) []

/-! ## License planner -/

/-- The feature selection flags passed to checkLicenseAvailability. -/
structure Features where
  enableSecretScanning : Bool
  enableCodeScanning : Bool
  enableDependabotAlerts : Bool
deriving DecidableEq, Repr

/-- One entry of advanced_security_committers_breakdown. -/
structure GhasCommitterBreakdown where
  last_pushed_email : Option String
deriving DecidableEq, Repr

/-- One entry of the repositories array of the billing response. -/
structure GhasRepoInfo where
  advanced_security_committers_breakdown : Option (List GhasCommitterBreakdown)
deriving DecidableEq, Repr

/-- The billing endpoint response fields the source reads. The
purchased seat count may be absent from the response. -/
structure GhasBillingData where
  purchased_advanced_security_committers : Option Int
  total_advanced_security_committers : Int
  repositories : Option (List GhasRepoInfo)
deriving DecidableEq, Repr

/-- A failure of the billing endpoint, tagged with whether the message
contains 422 (the missing advanced_security_product rejection). -/
structure ApiError where
  is422 : Bool
deriving DecidableEq, Repr

/-- Oracle for the billing endpoint: the optional
advanced_security_product query parameter to the outcome. -/
abbrev LicenseApi := Option String → Except ApiError GhasBillingData

/-- The advanced_security_product chosen for the retry, from the
selected features, as in the source: both features or code scanning
alone or nothing selected give code_security, secret scanning alone
gives secret_protection. -/
def advancedSecurityProductFor (features : Features) : String :=
  if features.enableSecretScanning && features.enableCodeScanning then
    "code_security"
  else if features.enableSecretScanning then
    "secret_protection"
  else if features.enableCodeScanning then
    "code_security"
  else
    "code_security"

/-- The billing fetch with its single 422-driven retry: try without the
parameter; on a 422 rejection retry exactly once with the derived
product; re-throw any other failure, and the failure of the retry. -/
def fetchLicenseData (api : LicenseApi) (features : Features) :
    Except ApiError GhasBillingData :=
  match api none with
  | .ok d => .ok d
  | .error e =>
    if e.is422 then api (some (advancedSecurityProductFor features))
    else .error e

/-- Number.MAX_SAFE_INTEGER, the unlimited sentinel for the reported
available seat figure. -/
def maxSafeInteger : Int := 9007199254740991

/-- The unlimited test of the source: a purchased seat count that is
zero or absent means unlimited licenses. -/
def isUnlimitedLicenses : Option Int → Bool
  | some t => t == 0
  | none => true

/-- parseInt of the MIN_REMAINING_LICENSES variable followed by the JS
or-with-1: an unparsable or absent value is NaN and falls back to 1,
and a parsed 0 is falsy and also falls back to 1. -/
def minRemainingOf : Option Int → Int
  | none => 1
  | some n => if n == 0 then 1 else n

/-- The unique lowercased last_pushed_email values across the billing
repositories array, in first-seen order. -/
def currentGhasCommittersOf (d : GhasBillingData) : List String :=
  match d.repositories with
  | none => []
  | some repos =>
    repos.foldl
      (fun acc repo =>
        match repo.advanced_security_committers_breakdown with
        | none => acc
        | some breakdown =>
          breakdown.foldl
            (fun acc2 entry =>
              match entry.last_pushed_email with
              | some e => addIdentity acc2 e
              | none => acc2)
            acc)
      []

/-- The committers needing new seats: those observed committers whose
lowercased form is not among the already licensed committers. -/
def newCommittersListOf (repoCommitters currentGhas : List String) : List String :=
  repoCommitters.filter (fun c => decide (normalizeId c ∉ currentGhas))

/-- The result object of checkLicenseAvailability, with the fields the
source returns. The empty-repository return of the source leaves
newCommittersList out; it is modelled as the empty list there. -/
structure LicenseCheckResult where
  totalLicenses : Option Int
  usedLicenses : Int
  availableLicenses : Int
  minRemainingLicenses : Int
  hasEnoughLicenses : Bool
  skipLicenseCheck : Bool
  currentGhasCommitters : List String
  newCommitters : Nat
  newCommittersList : List String
  estimatedLicensesNeeded : Nat
deriving DecidableEq, Repr

/-- checkLicenseAvailability from the source. The billing call and the
commit listing are the two oracles; tokensByHostname abstracts the map
the source assembles from the configuration and the environment;
minRemainingEnv is the parsed MIN_REMAINING_LICENSES variable. A
billing failure (after the one 422 retry) propagates as the error. -/
def checkLicenseAvailability (licenseApi : LicenseApi) (commitApi : CommitApi)
    (tokensByHostname : String → Option String) (minRemainingEnv : Option Int)
    (skipCheck : Bool) (repositories : List String) (features : Features) :
    Except ApiError LicenseCheckResult :=
  if skipCheck then
    .ok { totalLicenses := some 1000, usedLicenses := 1, availableLicenses := 999,
          minRemainingLicenses := minRemainingOf minRemainingEnv,
          hasEnoughLicenses := true, skipLicenseCheck := true,
          currentGhasCommitters := [], newCommitters := 0, newCommittersList := [],
          estimatedLicensesNeeded := 0 }
  else
    match fetchLicenseData licenseApi features with
    | .error e => .error e
    | .ok ghasData =>
      let totalLicenses := ghasData.purchased_advanced_security_committers
      let usedLicenses := ghasData.total_advanced_security_committers
      let isUnlimited := isUnlimitedLicenses totalLicenses
      let currentGhasCommitters := currentGhasCommittersOf ghasData
      let availableLicenses : Int :=
        if isUnlimited then maxSafeInteger else totalLicenses.getD 0 - usedLicenses
      let minRemainingLicenses := minRemainingOf minRemainingEnv
      if repositories.isEmpty then
        .ok { totalLicenses, usedLicenses, availableLicenses, minRemainingLicenses,
              hasEnoughLicenses :=
                isUnlimited || decide (availableLicenses > minRemainingLicenses),
              skipLicenseCheck := false,
              currentGhasCommitters,
              newCommitters := 0, newCommittersList := [],
              estimatedLicensesNeeded := 0 }
      else
        let repoCommitters :=
          getAllUniqueCommitters commitApi repositories tokensByHostname
        let newCommittersList := newCommittersListOf repoCommitters currentGhasCommitters
        let newCommittersCount := newCommittersList.length
        let estimatedAvailableLicenses : Int :=
          if isUnlimited then maxSafeInteger
          else availableLicenses - (newCommittersCount : Int)
        .ok { totalLicenses, usedLicenses,
              availableLicenses := estimatedAvailableLicenses,
              minRemainingLicenses,
              hasEnoughLicenses :=
                isUnlimited || decide (estimatedAvailableLicenses ≥ minRemainingLicenses),
              skipLicenseCheck := false,
              currentGhasCommitters,
              newCommitters := newCommittersCount,
              newCommittersList,
              estimatedLicensesNeeded := newCommittersCount }

/-! ## Reference resolver and instance router -/

/-- One ghes_instances entry of config.yaml. -/
structure GhesInstance where
  name : String
  api_url : String
  auth_var : String
deriving DecidableEq, Repr

/-- The configuration as far as the grouping code reads it. -/
structure Config where
  ghes_instances : List GhesInstance
deriving DecidableEq, Repr

/-- The JS replace of a leading api. label on a hostname. -/
def dropApiLabel (h : String) : String :=
  if ("api.".data).isPrefixOf h.data then ⟨h.data.drop 4⟩ else h

/-- The hostname an instance serves: the hostname of its api_url with a
leading api. label removed; none when the api_url does not parse (the
source catches and skips such instances). -/
def instanceHostname (inst : GhesInstance) : Option String :=
  (parseUrl inst.api_url).map (fun u => dropApiLabel u.hostname)

/-- The suffix-anchored hostname test of the source: exact equality, or
the repository hostname ends with a dot followed by the instance
hostname. -/
def instMatches (h : String) (inst : GhesInstance) : Bool :=
  match instanceHostname inst with
  | none => false
  | some d => decide (h = d) || (("." ++ d).data).isSuffixOf h.data

/-- The first configured instance matching a hostname, as the
break-on-match loop of the source. -/
def findMatchingInstance (h : String) (instances : List GhesInstance) :
    Option GhesInstance :=
  instances.find? (instMatches h)

/-- One invalidRepositories entry: the original input and the recorded
error text. -/
structure InvalidRepo where
  url : String
  error : String
deriving DecidableEq, Repr

/-- One matrix item produced by the grouping step. -/
structure MatrixItem where
  hostname : String
  instance_name : String
  api_url : String
  auth_var : String
  repositories : List String
  enable_secret_scanning : Bool
  enable_code_scanning : Bool
  enable_dependabot_alerts : Bool
  min_remaining_licenses : Int
deriving DecidableEq, Repr

/-- The return object of parseConfigAndGroupRepos. -/
structure GroupResult where
  matrixItems : List MatrixItem
  invalidRepositories : List InvalidRepo
  validRepositories : List String
  totalRepositories : Nat
deriving DecidableEq, Repr

/-- The tokensByHostname map assembled from the configured instances:
for each instance whose api_url parses, its served hostname maps to the
value of its auth_var in the environment; later instances win. -/
def tokensFromConfig (config : Config) (env : String → Option String) :
    String → Option String :=
  config.ghes_instances.foldl
    (fun acc inst =>
      match instanceHostname inst with
      | none => acc
      | some hn => fun h => if h = hn then env inst.auth_var else acc h)
    (fun _ => none)

/-- Oracle for the organization repository listing: hostname and
organization name to either the listed full_name values or the recorded
error text of the failure. -/
abbrev OrgApi := String → String → Except String (List String)

/-- fetchOrganizationRepos from the source: parse the organization URL,
extract the path as the organization name, require a token, list the
repositories and map each full_name to a full https URL on the same
hostname. -/
def fetchOrganizationRepos (api : OrgApi) (orgUrl : String) (token : String) :
    Except String (List String) :=
  match parseUrl orgUrl with
  | none => .error "Invalid organization URL"
  | some u =>
    let orgPath : String := ⟨stripLeadingSlash u.pathname.data⟩
    if orgPath.isEmpty then .error "Could not extract organization name from URL"
    else if token.isEmpty then .error "No authentication token provided"
    else
      match api u.hostname orgPath with
      | .error e => .error e
      | .ok fullNames =>
        .ok (fullNames.map (fun fn => "https://" ++ u.hostname ++ "/" ++ fn))

/-- One step of the organization expansion loop: a missing or empty
token records an invalid entry and skips the expansion; a listing
failure records the returned error; a success appends the expanded
repository URLs. A URL that fails to parse here is only logged by the
source (unreachable for inputs classified as organization URLs). -/
def expandOrgStep (api : OrgApi) (tokens : String → Option String)
    (st : List String × List InvalidRepo) (orgUrl : String) :
    List String × List InvalidRepo :=
  match parseUrl orgUrl with
  | none => st
  | some u =>
    match tokens u.hostname with
    | none =>
      (st.1, st.2 ++ [⟨orgUrl, "No authentication token available for this hostname"⟩])
    | some t =>
      if t.isEmpty then
        (st.1, st.2 ++ [⟨orgUrl, "No authentication token available for this hostname"⟩])
      else
        match fetchOrganizationRepos api orgUrl t with
        | .ok rs => (st.1 ++ rs, st.2)
        | .error e => (st.1, st.2 ++ [⟨orgUrl, e⟩])

/-- The error text recorded when a repository URL fails to parse during
grouping (the JS URL constructor message, modelled as a fixed text). -/
def urlErrorMessage : String := "Invalid URL"

/-- Append a repository under its hostname key, keeping the insertion
order of hostnames, as pushing into a JS object of arrays. -/
def upsert : List (String × List String) → String → String →
    List (String × List String)
  | [], k, v => [(k, [v])]
  | (k1, vs) :: t, k, v =>
    if k1 = k then (k1, vs ++ [v]) :: t else (k1, vs) :: upsert t k v

/-- One step of the grouping loop: group a parsable repository URL
under its hostname and record it as valid, or record an invalid entry. -/
def groupStep (st : List (String × List String) × List String × List InvalidRepo)
    (repo : String) : List (String × List String) × List String × List InvalidRepo :=
  match parseUrl repo with
  | some u => (upsert st.1 u.hostname repo, st.2.1 ++ [repo], st.2.2)
  | none => (st.1, st.2.1, st.2.2 ++ [⟨repo, urlErrorMessage⟩])

/-- The matrix item for one hostname group: the first matching
configured instance, or the documented unmatched defaults. -/
def buildMatrixItem (config : Config) (ess ecs eda : Bool) (mr : Int)
    (hn : String) (reposList : List String) : MatrixItem :=
  match findMatchingInstance hn config.ghes_instances with
  | some inst =>
    { hostname := hn, instance_name := inst.name, api_url := inst.api_url,
      auth_var := inst.auth_var, repositories := reposList,
      enable_secret_scanning := ess, enable_code_scanning := ecs,
      enable_dependabot_alerts := eda, min_remaining_licenses := mr }
  | none =>
    { hostname := hn, instance_name := "unknown",
      api_url := "https://" ++ hn ++ "/api/v3", auth_var := "GH_ENTERPRISE_TOKEN",
      repositories := reposList, enable_secret_scanning := ess,
      enable_code_scanning := ecs, enable_dependabot_alerts := eda,
      min_remaining_licenses := mr }

/-- parseConfigAndGroupRepos from the source: classify the inputs,
expand the organization URLs through the listing oracle, group the
resulting repository URLs by hostname and attach each group to its
first matching instance or to the unmatched defaults. No deduplication
of repository URLs happens anywhere in this pipeline. -/
def parseConfigAndGroupRepos (config : Config) (env : String → Option String)
    (orgApi : OrgApi) (inputRepos : List String) (ess ecs eda : Bool)
    (mr : Int) : GroupResult :=
  let directRepoUrls := inputRepos.filter (fun u => !(isOrganizationUrl u))
  let orgUrls := inputRepos.filter (fun u => isOrganizationUrl u)
  let tokens := tokensFromConfig config env
  let expanded := orgUrls.foldl (expandOrgStep orgApi tokens) (directRepoUrls, [])
  let grouped := expanded.1.foldl groupStep ([], [], expanded.2)
  { matrixItems := grouped.1.map (fun p => buildMatrixItem config ess ecs eda mr p.1 p.2),
    invalidRepositories := grouped.2.2,
    validRepositories := grouped.2.1,
    totalRepositories := expanded.1.length }

/-! ## Concrete fixtures used by witnesses and counterexamples -/

/-- A configuration with one instance serving hostname h, for the
end-to-end resolution scenario. -/
def scenarioConfig : Config := ⟨[⟨"ghes-1", "https://h", "GHES_API_TOKEN_1"⟩]⟩

/-- An environment holding the token of the scenario instance. -/
def scenarioEnv : String → Option String :=
  fun v => if v = "GHES_API_TOKEN_1" then some "token-1" else none

/-- An organization listing oracle where org1 on hostname h contains
repoA and repoB. -/
def scenarioOrgApi : OrgApi :=
  fun host org =>
    if host = "h" ∧ org = "org1" then Except.ok ["org1/repoA", "org1/repoB"]
    else Except.error "not found"

/-- A commit listing oracle where the organization named bad fails with
a thrown error and every other repository has one committer. -/
def c9FailApi : CommitApi :=
  fun _ org _ _ =>
    if org = "bad" then Except.error ()
    else Except.ok (some [⟨some "A@x.com", none⟩])

/-- A billing oracle that rejects the unparameterized request with a
422 error and accepts the parameterized retry. -/
def c7Api : LicenseApi :=
  fun p =>
    match p with
    | none => Except.error ⟨true⟩
    | some _ => Except.ok ⟨some 3, 1, none⟩

/-- A commit listing oracle that always succeeds with one committer. -/
def c10Api : CommitApi := fun _ _ _ _ => Except.ok (some [⟨some "x@y", none⟩])

/-! ## Helper lemmas about identity normalization and identity sets -/

theorem char_toNat_ofNat_valid {n : Nat} (h : Nat.isValidChar n) :
    (Char.ofNat n).toNat = n := by
  rw [Char.ofNat, dif_pos h]
  rfl

theorem char_toLower_of_not_upper {c : Char} (h : ¬(c.toNat ≥ 65 ∧ c.toNat ≤ 90)) :
    Char.toLower c = c := by
  unfold Char.toLower
  exact if_neg h

theorem char_toLower_toLower (c : Char) :
    Char.toLower (Char.toLower c) = Char.toLower c := by
  by_cases h : c.toNat ≥ 65 ∧ c.toNat ≤ 90
  · have h1 : Char.toLower c = Char.ofNat (c.toNat + 32) := by
      unfold Char.toLower
      exact if_pos h
    have hv : Nat.isValidChar (c.toNat + 32) := Or.inl (by omega)
    have h2 : (Char.toLower c).toNat = c.toNat + 32 := by
      rw [h1]; exact char_toNat_ofNat_valid hv
    exact char_toLower_of_not_upper (by omega)
  · have h1 : Char.toLower c = c := char_toLower_of_not_upper h
    rw [h1]
    exact h1

theorem normalizeId_normalizeId (s : String) :
    normalizeId (normalizeId s) = normalizeId s := by
  show String.mk ((s.data.map Char.toLower).map Char.toLower)
      = String.mk (s.data.map Char.toLower)
  rw [List.map_map]
  exact congrArg _ (List.map_congr_left fun a _ => char_toLower_toLower a)

theorem mem_insertUnique {l : List String} {x a : String} :
    a ∈ insertUnique l x ↔ a ∈ l ∨ a = x := by
  unfold insertUnique
  split
  · next h =>
      constructor
      · exact Or.inl
      · rintro (ha | rfl)
        · exact ha
        · exact h
  · simp

theorem nodup_insertUnique {l : List String} {x : String} (h : l.Nodup) :
    (insertUnique l x).Nodup := by
  unfold insertUnique
  split
  · exact h
  · next hx =>
      refine (List.nodup_append.2 ⟨h, List.nodup_singleton x, ?_⟩)
      intro a ha hb
      rw [List.mem_singleton] at hb
      subst hb
      exact hx ha

theorem mem_foldl_addIdentity {l : List String} {acc : List String} {a : String} :
    a ∈ l.foldl addIdentity acc ↔ a ∈ acc ∨ ∃ e ∈ l, normalizeId e = a := by
  induction l generalizing acc with
  | nil => simp
  | cons x xs ih =>
    simp only [List.foldl_cons, ih, addIdentity, mem_insertUnique, List.mem_cons]
    constructor
    · rintro ((ha | rfl) | ⟨e, he, rfl⟩)
      · exact Or.inl ha
      · exact Or.inr ⟨x, Or.inl rfl, rfl⟩
      · exact Or.inr ⟨e, Or.inr he, rfl⟩
    · rintro (ha | ⟨e, (rfl | he), rfl⟩)
      · exact Or.inl (Or.inl ha)
      · exact Or.inl (Or.inr rfl)
      · exact Or.inr ⟨e, he, rfl⟩

theorem nodup_foldl_addIdentity {l : List String} {acc : List String} (h : acc.Nodup) :
    (l.foldl addIdentity acc).Nodup := by
  induction l generalizing acc with
  | nil => simpa
  | cons x xs ih => exact ih (nodup_insertUnique h)

theorem mem_identitySetOf {l : List String} {a : String} :
    a ∈ identitySetOf l ↔ ∃ e ∈ l, normalizeId e = a := by
  unfold identitySetOf
  rw [mem_foldl_addIdentity]
  simp

theorem nodup_identitySetOf (l : List String) : (identitySetOf l).Nodup :=
  nodup_foldl_addIdentity List.nodup_nil

theorem normalizeId_of_mem_identitySetOf {l : List String} {a : String}
    (h : a ∈ identitySetOf l) : normalizeId a = a := by
  rcases mem_identitySetOf.1 h with ⟨e, _, rfl⟩
  exact normalizeId_normalizeId e

theorem estimatedSeats_eq_sdiff_card (obs lic : List String) :
    (newCommittersListOf (identitySetOf obs) (identitySetOf lic)).length
      = ((identitySetOf obs).toFinset \ (identitySetOf lic).toFinset).card := by
  have hfix : ∀ c ∈ identitySetOf obs, normalizeId c = c :=
    fun c hc => normalizeId_of_mem_identitySetOf hc
  have hfilter : newCommittersListOf (identitySetOf obs) (identitySetOf lic)
      = (identitySetOf obs).filter (fun c => decide (c ∉ identitySetOf lic)) := by
    unfold newCommittersListOf
    apply List.filter_congr
    intro c hc
    rw [hfix c hc]
  rw [hfilter]
  have hnd : (identitySetOf obs).Nodup := nodup_identitySetOf obs
  have hndf :
      ((identitySetOf obs).filter (fun c => decide (c ∉ identitySetOf lic))).Nodup :=
    hnd.filter _
  rw [← List.toFinset_card_of_nodup hndf, List.toFinset_filter, Finset.sdiff_eq_filter]
  congr 1
  apply Finset.filter_congr
  intro c hc
  simp [List.mem_toFinset]

theorem estimatedSeats_append_already_licensed (obs lic : List String) (x : String)
    (hx : normalizeId x ∈ identitySetOf lic) :
    (newCommittersListOf (identitySetOf (obs ++ [x])) (identitySetOf lic)).length
      = (newCommittersListOf (identitySetOf obs) (identitySetOf lic)).length := by
  have hexp : identitySetOf (obs ++ [x])
      = insertUnique (identitySetOf obs) (normalizeId x) := by
    unfold identitySetOf
    rw [List.foldl_append]
    rfl
  rw [hexp]
  unfold insertUnique
  split
  · rfl
  · unfold newCommittersListOf
    rw [List.filter_append]
    have hdrop : (List.filter (fun c => decide (normalizeId c ∉ identitySetOf lic))
        [normalizeId x]) = [] := by
      simp [normalizeId_normalizeId, hx]
    rw [hdrop]
    simp

/-! ## Helper lemmas about the committer analyzer and the router -/

theorem gacStep_of_no_token {api : CommitApi} {tokens : String → Option String}
    {r : String} {u : JsUrl} (hparse : parseUrl r = some u)
    (htok : tokens u.hostname = none) (acc : List String) :
    gacStep api tokens acc r = acc := by
  simp only [gacStep, hparse, htok]

theorem gacStep_of_fetch_failure {api : CommitApi} {tokens : String → Option String}
    {r : String} {u : JsUrl} {org repo : List Char} {rest : List (List Char)}
    {t : String} (hparse : parseUrl r = some u)
    (hparts : repoPathParts u = org :: repo :: rest)
    (htok : tokens u.hostname = some t) (hne : t.isEmpty = false)
    (hapi : api u.hostname ⟨org⟩ ⟨repo⟩ t = Except.error ()) (acc : List String) :
    gacStep api tokens acc r = acc := by
  simp only [gacStep, hparse, htok, hne, Bool.false_eq_true, if_false,
    fetchRepoCommitters, hparts, hapi, List.foldl_nil]

theorem instMatches_eq_true_iff (h : String) (inst : GhesInstance) :
    instMatches h inst = true ↔
      ∃ d, instanceHostname inst = some d ∧
        (h = d ∨ List.IsSuffix ("." ++ d).data h.data) := by
  unfold instMatches
  cases hi : instanceHostname inst with
  | none => simp
  | some d =>
    simp only [Bool.or_eq_true, decide_eq_true_eq, List.isSuffixOf_iff_suffix,
      Option.some.injEq]
    constructor
    · rintro (h1 | h2)
      · exact ⟨d, rfl, Or.inl h1⟩
      · exact ⟨d, rfl, Or.inr h2⟩
    · rintro ⟨d2, rfl, hcase⟩
      exact hcase

theorem buildMatrixItem_hostname (cfg : Config) (ess ecs eda : Bool) (mr : Int)
    (hn : String) (reposList : List String) :
    (buildMatrixItem cfg ess ecs eda mr hn reposList).hostname = hn ∧
    (buildMatrixItem cfg ess ecs eda mr hn reposList).repositories = reposList := by
  unfold buildMatrixItem
  cases findMatchingInstance hn cfg.ghes_instances <;> exact ⟨rfl, rfl⟩

/-! ## Claim theorems -/

/-- C1, counterexample to the claim as stated: with a limited snapshot
of 5 total and 4 used seats, minimum headroom 1 and an empty repository
group, the projected available seat count equals the configured minimum
(1), yet the plan is rejected: the zero-repository fallback path uses a
strict comparison, not the non-strict comparison the claim asserts for
both paths. -/
theorem c1_boundary_counterexample :
    checkLicenseAvailability (fun _ => Except.ok ⟨some 5, 4, none⟩)
        (fun _ _ _ _ => Except.ok none) (fun _ => none) none false []
        ⟨false, false, false⟩
      = Except.ok ⟨some 5, 4, 1, 1, false, false, [], 0, [], 0⟩ := by
  rfl

/-- C1, amended: for every limited license snapshot, the
committer-analysis path approves iff the projected available seats
(totalSeats - usedSeats - estimatedSeatsNeeded) are greater than or
equal to minHeadroom, while the zero-repository fallback path approves
iff the base available seats (totalSeats - usedSeats) are strictly
greater than minHeadroom; the two paths use different comparison
operators. -/
theorem c1_headroom_comparison (licenseApi : LicenseApi) (commitApi : CommitApi)
    (tokensByHostname : String → Option String) (minRemainingEnv : Option Int)
    (repositories : List String) (features : Features) (d : GhasBillingData) (n : Int)
    (hfetch : fetchLicenseData licenseApi features = .ok d)
    (hn : d.purchased_advanced_security_committers = some n) (hn0 : n ≠ 0) :
    ∃ r, checkLicenseAvailability licenseApi commitApi tokensByHostname minRemainingEnv
        false repositories features = .ok r ∧
      r.minRemainingLicenses = minRemainingOf minRemainingEnv ∧
      (repositories.isEmpty = true →
        r.availableLicenses = n - d.total_advanced_security_committers ∧
        r.estimatedLicensesNeeded = 0 ∧
        r.hasEnoughLicenses = decide (r.availableLicenses > r.minRemainingLicenses)) ∧
      (repositories.isEmpty = false →
        r.availableLicenses = n - d.total_advanced_security_committers
          - (r.estimatedLicensesNeeded : Int) ∧
        r.hasEnoughLicenses = decide (r.availableLicenses ≥ r.minRemainingLicenses)) := by
  have hU : isUnlimitedLicenses (some n) = false := by
    simp [isUnlimitedLicenses, hn0]
  unfold checkLicenseAvailability
  simp only [Bool.false_eq_true, if_false, hfetch, hn, hU, Bool.false_or,
    Option.getD_some]
  by_cases hemp : repositories.isEmpty
  · simp only [hemp, if_true]
    exact ⟨_, rfl, rfl, fun _ => ⟨rfl, rfl, rfl⟩, fun hc => Bool.noConfusion hc⟩
  · simp only [hemp, if_false]
    exact ⟨_, rfl, rfl, fun hc => Bool.noConfusion hc, fun _ => ⟨rfl, rfl⟩⟩

/-- C1, witness: the amended claim instantiated on a limited snapshot
with one nonempty repository group. -/
theorem c1_headroom_comparison_witness :
    ∃ r, checkLicenseAvailability (fun _ => Except.ok ⟨some 5, 4, none⟩)
        (fun _ _ _ _ => Except.ok none) (fun _ => none) none false
        ["https://h/o/r"] ⟨false, false, false⟩ = .ok r ∧
      r.minRemainingLicenses = minRemainingOf none ∧
      ((["https://h/o/r"] : List String).isEmpty = true →
        r.availableLicenses = 5 - (4 : Int) ∧
        r.estimatedLicensesNeeded = 0 ∧
        r.hasEnoughLicenses = decide (r.availableLicenses > r.minRemainingLicenses)) ∧
      ((["https://h/o/r"] : List String).isEmpty = false →
        r.availableLicenses = 5 - (4 : Int) - (r.estimatedLicensesNeeded : Int) ∧
        r.hasEnoughLicenses = decide (r.availableLicenses ≥ r.minRemainingLicenses)) :=
  c1_headroom_comparison (fun _ => Except.ok ⟨some 5, 4, none⟩)
    (fun _ _ _ _ => Except.ok none) (fun _ => none) none ["https://h/o/r"]
    ⟨false, false, false⟩ ⟨some 5, 4, none⟩ 5 rfl rfl (by decide)

/-- C2: whenever the snapshot reports a zero or absent total seat
count, the license check treats seats as unlimited: the plan is
approved whatever the repositories and the configured minimum headroom
are, and the reported available seat figure is the unlimited sentinel
Number.MAX_SAFE_INTEGER, never a negative subtraction result. -/
theorem c2_unlimited_sentinel (licenseApi : LicenseApi) (commitApi : CommitApi)
    (tokensByHostname : String → Option String) (minRemainingEnv : Option Int)
    (repositories : List String) (features : Features) (d : GhasBillingData)
    (hfetch : fetchLicenseData licenseApi features = .ok d)
    (hU : d.purchased_advanced_security_committers = some 0 ∨
          d.purchased_advanced_security_committers = none) :
    ∃ r, checkLicenseAvailability licenseApi commitApi tokensByHostname minRemainingEnv
        false repositories features = .ok r ∧
      r.hasEnoughLicenses = true ∧ r.availableLicenses = maxSafeInteger ∧
      0 ≤ r.availableLicenses := by
  have hUb : isUnlimitedLicenses d.purchased_advanced_security_committers = true := by
    rcases hU with h | h <;> simp [isUnlimitedLicenses, h]
  unfold checkLicenseAvailability
  simp only [Bool.false_eq_true, if_false, hfetch, hUb, if_true, Bool.true_or]
  have hpos : (0 : Int) ≤ maxSafeInteger := by decide
  by_cases hemp : repositories.isEmpty
  · simp only [hemp, if_true]
    exact ⟨_, rfl, rfl, rfl, hpos⟩
  · simp only [hemp, if_false]
    exact ⟨_, rfl, rfl, rfl, hpos⟩

/-- C2, witness: the unlimited sentinel claim instantiated on a
snapshot with zero purchased seats and seven used seats. -/
theorem c2_unlimited_sentinel_witness :
    ∃ r, checkLicenseAvailability (fun _ => Except.ok ⟨some 0, 7, none⟩)
        (fun _ _ _ _ => Except.ok none) (fun _ => none) none false []
        ⟨false, false, false⟩ = .ok r ∧
      r.hasEnoughLicenses = true ∧ r.availableLicenses = maxSafeInteger ∧
      0 ≤ r.availableLicenses :=
  c2_unlimited_sentinel (fun _ => Except.ok ⟨some 0, 7, none⟩)
    (fun _ _ _ _ => Except.ok none) (fun _ => none) none [] ⟨false, false, false⟩
    ⟨some 0, 7, none⟩ rfl (Or.inl rfl)

/-- C3: for every observed raw identity list and every already-licensed
raw identity list, the estimated number of needed seats computed by the
planner equals the cardinality of the set difference of the normalized
identity sets, and appending an identity whose normalized form is
already licensed to the observed list leaves the estimate unchanged. -/
theorem c3_estimated_seats_set_difference :
    (∀ observedRaw licensedRaw : List String,
      (newCommittersListOf (identitySetOf observedRaw) (identitySetOf licensedRaw)).length
        = ((identitySetOf observedRaw).toFinset
            \ (identitySetOf licensedRaw).toFinset).card)
    ∧ (∀ (observedRaw licensedRaw : List String) (x : String),
      normalizeId x ∈ identitySetOf licensedRaw →
      (newCommittersListOf (identitySetOf (observedRaw ++ [x]))
          (identitySetOf licensedRaw)).length
        = (newCommittersListOf (identitySetOf observedRaw)
            (identitySetOf licensedRaw)).length) :=
  ⟨estimatedSeats_eq_sdiff_card, estimatedSeats_append_already_licensed⟩

/-- C4, counterexample to the claim as stated: on the end-to-end
scenario with inputs https://h/org1/repoA and https://h/org1, where
org1 expands to repoA and repoB, the routing group holds repoA twice
(once from the direct reference and once from the expansion), not
exactly once. -/
theorem c4_duplicate_repo_counterexample :
    ((parseConfigAndGroupRepos scenarioConfig scenarioEnv scenarioOrgApi
        ["https://h/org1/repoA", "https://h/org1"] true false false 1).matrixItems.map
        (fun item => item.repositories))
      = [["https://h/org1/repoA", "https://h/org1/repoA", "https://h/org1/repoB"]]
    ∧ ((parseConfigAndGroupRepos scenarioConfig scenarioEnv scenarioOrgApi
        ["https://h/org1/repoA", "https://h/org1"] true false false 1).matrixItems.map
        (fun item => item.repositories.count "https://h/org1/repoA")) = [2] := by
  exact ⟨rfl, rfl⟩

/-- C4, amended: on the same scenario the set of distinct repositories
in the routing group is exactly org1/repoA and org1/repoB, but the
group list itself is not deduplicated: repoA appears twice and repoB
once. -/
theorem c4_resolution_dedup_amended :
    ((parseConfigAndGroupRepos scenarioConfig scenarioEnv scenarioOrgApi
        ["https://h/org1/repoA", "https://h/org1"] true false false 1).matrixItems.map
        (fun item => item.repositories.toFinset))
      = [{"https://h/org1/repoA", "https://h/org1/repoB"}]
    ∧ ((parseConfigAndGroupRepos scenarioConfig scenarioEnv scenarioOrgApi
        ["https://h/org1/repoA", "https://h/org1"] true false false 1).matrixItems.map
        (fun item => item.repositories.count "https://h/org1/repoA")) = [2]
    ∧ ((parseConfigAndGroupRepos scenarioConfig scenarioEnv scenarioOrgApi
        ["https://h/org1/repoA", "https://h/org1"] true false false 1).matrixItems.map
        (fun item => item.repositories.count "https://h/org1/repoB")) = [1] := by
  refine ⟨?_, rfl, rfl⟩
  decide

/-- C5: a hostname is routed to a configured instance iff it is the
first instance in the list whose served hostname equals the repository
hostname or is a proper dot-separated suffix of it; in particular
github-test.example.com does not match an instance serving
github.example.com, while ghes1.github.example.com does. -/
theorem c5_hostname_suffix_matching :
    (∀ (h : String) (instances : List GhesInstance) (inst : GhesInstance),
      findMatchingInstance h instances = some inst ↔
        ((∃ d, instanceHostname inst = some d ∧
            (h = d ∨ List.IsSuffix ("." ++ d).data h.data))
         ∧ ∃ pre post, instances = pre ++ inst :: post ∧
             ∀ j ∈ pre, instMatches h j = false))
    ∧ instMatches "github-test.example.com"
        ⟨"ghes", "https://github.example.com", "TOK"⟩ = false
    ∧ instMatches "ghes1.github.example.com"
        ⟨"ghes", "https://github.example.com", "TOK"⟩ = true := by
  refine ⟨fun h instances inst => ?_, by decide, by decide⟩
  unfold findMatchingInstance
  rw [List.find?_eq_some]
  simp only [Bool.not_eq_true', instMatches_eq_true_iff]

/-- C6: with skipCheck set, the license check returns an approved
result with zero estimated seats and the distinct skipLicenseCheck
marker, whatever the snapshot and repositories are; and no result of a
non-skipped run ever carries that marker. -/
theorem c6_skip_check (licenseApi : LicenseApi) (commitApi : CommitApi)
    (tokensByHostname : String → Option String) (minRemainingEnv : Option Int)
    (repositories : List String) (features : Features) :
    (∃ r, checkLicenseAvailability licenseApi commitApi tokensByHostname minRemainingEnv
        true repositories features = .ok r ∧
      r.hasEnoughLicenses = true ∧ r.estimatedLicensesNeeded = 0 ∧
      r.skipLicenseCheck = true)
    ∧ (∀ r, checkLicenseAvailability licenseApi commitApi tokensByHostname minRemainingEnv
        false repositories features = .ok r → r.skipLicenseCheck = false) := by
  constructor
  · exact ⟨_, rfl, rfl, rfl, rfl⟩
  · intro r hr
    unfold checkLicenseAvailability at hr
    simp only [Bool.false_eq_true, if_false] at hr
    cases hfetch : fetchLicenseData licenseApi features with
    | error e => rw [hfetch] at hr; cases hr
    | ok d =>
      rw [hfetch] at hr
      by_cases hemp : repositories.isEmpty
      · simp only [hemp, if_true] at hr
        cases hr
        rfl
      · simp only [hemp, if_false] at hr
        cases hr
        rfl

/-- C7: when the unparameterized billing request fails with a 422
rejection, the fetch is exactly the one retry with the product derived
from the feature selection (secret scanning alone gives
secret_protection, every other selection gives code_security), and a
non-422 failure is not retried: it propagates out of the fetch and
aborts the whole license check. -/
theorem c7_license_fetch_retry (licenseApi : LicenseApi) (features : Features)
    (e : ApiError) (hfail : licenseApi none = .error e) :
    (e.is422 = true →
      fetchLicenseData licenseApi features
        = licenseApi (some (advancedSecurityProductFor features)) ∧
      advancedSecurityProductFor features
        = (if features.enableSecretScanning && !features.enableCodeScanning then
            "secret_protection" else "code_security"))
    ∧ (e.is422 = false →
      fetchLicenseData licenseApi features = .error e ∧
      ∀ (commitApi : CommitApi) (tokensByHostname : String → Option String)
        (minRemainingEnv : Option Int) (repositories : List String),
        checkLicenseAvailability licenseApi commitApi tokensByHostname minRemainingEnv
          false repositories features = .error e) := by
  constructor
  · intro h422
    constructor
    · unfold fetchLicenseData
      rw [hfail]
      simp [h422]
    · rcases features with ⟨ss, cs, da⟩
      cases ss <;> cases cs <;> rfl
  · intro h422
    have hferr : fetchLicenseData licenseApi features = .error e := by
      unfold fetchLicenseData
      rw [hfail]
      simp [h422]
    refine ⟨hferr, fun commitApi tokensByHostname minRemainingEnv repositories => ?_⟩
    unfold checkLicenseAvailability
    simp only [Bool.false_eq_true, if_false, hferr]

/-- C7, witness: the retry claim instantiated on a billing oracle that
rejects the unparameterized request with 422, with secret scanning
alone selected. -/
theorem c7_license_fetch_retry_witness :
    ((⟨true⟩ : ApiError).is422 = true →
      fetchLicenseData c7Api ⟨true, false, false⟩
        = c7Api (some (advancedSecurityProductFor ⟨true, false, false⟩)) ∧
      advancedSecurityProductFor ⟨true, false, false⟩
        = (if (true && !false : Bool) then "secret_protection" else "code_security"))
    ∧ ((⟨true⟩ : ApiError).is422 = false →
      fetchLicenseData c7Api ⟨true, false, false⟩ = .error ⟨true⟩ ∧
      ∀ (commitApi : CommitApi) (tokensByHostname : String → Option String)
        (minRemainingEnv : Option Int) (repositories : List String),
        checkLicenseAvailability c7Api commitApi tokensByHostname minRemainingEnv
          false repositories ⟨true, false, false⟩ = .error ⟨true⟩) :=
  c7_license_fetch_retry c7Api ⟨true, false, false⟩ ⟨true⟩ rfl

/-- C8, counterexample to the claim as stated: the parseable
zero-segment reference https://h is not recorded as an invalid
reference; it is grouped like a repository reference and enters a
routing group. -/
theorem c8_zero_segment_counterexample :
    (parseConfigAndGroupRepos ⟨[]⟩ (fun _ => none) (fun _ _ => Except.error "nf")
        ["https://h"] false false false 1)
      = ⟨[⟨"h", "unknown", "https://h/api/v3", "GH_ENTERPRISE_TOKEN", ["https://h"],
          false, false, false, 1⟩], [], ["https://h"], 1⟩ := by
  rfl

/-- C8, amended: a parseable reference with exactly one non-empty path
segment is classified as a container reference; a parseable reference
with any other segment count (two or more, and also zero) is treated as
a repository reference and enters a routing group for its hostname with
no invalid record; only an unparseable reference yields an invalid
reference record and never enters any routing group. -/
theorem c8_reference_classification (cfg : Config) (env : String → Option String)
    (orgApi : OrgApi) (s : String) (ess ecs eda : Bool) (mr : Int) :
    (∀ u, parseUrl s = some u →
      ((pathSegments u).length = 1 → isOrganizationUrl s = true)
      ∧ ((pathSegments u).length ≠ 1 →
        isOrganizationUrl s = false ∧
        ∃ item,
          (parseConfigAndGroupRepos cfg env orgApi [s] ess ecs eda mr).matrixItems
            = [item]
          ∧ item.hostname = u.hostname ∧ item.repositories = [s]
          ∧ (parseConfigAndGroupRepos cfg env orgApi [s] ess ecs eda mr).invalidRepositories
              = []))
    ∧ (parseUrl s = none →
      isOrganizationUrl s = false ∧
      (parseConfigAndGroupRepos cfg env orgApi [s] ess ecs eda mr).matrixItems = []
      ∧ (parseConfigAndGroupRepos cfg env orgApi [s] ess ecs eda mr).invalidRepositories
          = [⟨s, urlErrorMessage⟩]) := by
  constructor
  · intro u hparse
    constructor
    · intro hlen
      simp [isOrganizationUrl, hparse, hlen]
    · intro hlen
      have horg : isOrganizationUrl s = false := by
        simp [isOrganizationUrl, hparse, hlen]
      refine ⟨horg, buildMatrixItem cfg ess ecs eda mr u.hostname [s], ?_, ?_, ?_, ?_⟩
      · simp [parseConfigAndGroupRepos, horg, groupStep, hparse, upsert]
      · exact (buildMatrixItem_hostname cfg ess ecs eda mr u.hostname [s]).1
      · exact (buildMatrixItem_hostname cfg ess ecs eda mr u.hostname [s]).2
      · simp [parseConfigAndGroupRepos, horg, groupStep, hparse]
  · intro hnone
    have horg : isOrganizationUrl s = false := by
      simp [isOrganizationUrl, hnone]
    refine ⟨horg, ?_, ?_⟩
    · simp [parseConfigAndGroupRepos, horg, groupStep, hnone]
    · simp [parseConfigAndGroupRepos, horg, groupStep, hnone]

/-- C9, counterexample to the claim as stated: with one failing and one
succeeding repository, the group committer analysis returns exactly the
committers of the succeeding repository and nothing else; the result is
identical to the analysis run without the failing repository, so no
invalid reference record (and no other trace of the failure) is
produced in the returned value. -/
theorem c9_no_invalid_record_counterexample :
    getAllUniqueCommitters c9FailApi ["https://h/bad/rep", "https://h/good/rep"]
        (fun _ => some "t")
      = ["a@x.com"]
    ∧ getAllUniqueCommitters c9FailApi ["https://h/good/rep"] (fun _ => some "t")
      = ["a@x.com"] := by
  exact ⟨rfl, rfl⟩

/-- C9, amended: a repository whose commit fetch throws contributes the
empty identity set, and the analysis of all remaining repositories in
the group completes unchanged (the group result equals the result
without the failing repository); no invalid reference record is
produced for it in the returned value, the error being only logged. -/
theorem c9_partial_failure_tolerance (api : CommitApi)
    (tokens : String → Option String) (l1 l2 : List String) (r : String)
    (u : JsUrl) (org repo : List Char) (rest : List (List Char)) (t : String)
    (hparse : parseUrl r = some u)
    (hparts : repoPathParts u = org :: repo :: rest)
    (htok : tokens u.hostname = some t) (hne : t.isEmpty = false)
    (hapi : api u.hostname ⟨org⟩ ⟨repo⟩ t = Except.error ()) :
    fetchRepoCommitters api r t = [] ∧
    getAllUniqueCommitters api (l1 ++ r :: l2) tokens
      = getAllUniqueCommitters api (l1 ++ l2) tokens := by
  constructor
  · simp only [fetchRepoCommitters, hparse, hparts, hapi]
  · unfold getAllUniqueCommitters
    rw [List.foldl_append, List.foldl_append, List.foldl_cons,
      gacStep_of_fetch_failure hparse hparts htok hne hapi]

/-- C9, witness: the amended claim instantiated on the failing oracle
with one failing and one succeeding repository. -/
theorem c9_partial_failure_tolerance_witness :
    fetchRepoCommitters c9FailApi "https://h/bad/rep" "t" = [] ∧
    getAllUniqueCommitters c9FailApi
        ([] ++ "https://h/bad/rep" :: ["https://h/good/rep"]) (fun _ => some "t")
      = getAllUniqueCommitters c9FailApi ([] ++ ["https://h/good/rep"])
          (fun _ => some "t") :=
  c9_partial_failure_tolerance c9FailApi (fun _ => some "t") [] ["https://h/good/rep"]
    "https://h/bad/rep" ⟨"h", "/bad/rep"⟩ "bad".data "rep".data [] "t"
    rfl rfl rfl rfl rfl

/-- C10: a repository whose hostname has no entry in the token map is
skipped silently by the group committer analysis: it contributes
nothing, no error or record is produced, and the result equals the
analysis of the list without that repository. -/
theorem c10_missing_token_silent_skip (api : CommitApi)
    (tokens : String → Option String) (l1 l2 : List String) (r : String)
    (u : JsUrl) (hparse : parseUrl r = some u)
    (htok : tokens u.hostname = none) :
    getAllUniqueCommitters api (l1 ++ r :: l2) tokens
      = getAllUniqueCommitters api (l1 ++ l2) tokens := by
  unfold getAllUniqueCommitters
  rw [List.foldl_append, List.foldl_append, List.foldl_cons,
    gacStep_of_no_token hparse htok]

/-- C10, witness: the silent skip instantiated on a token map with no
entries and a single repository. -/
theorem c10_missing_token_silent_skip_witness :
    getAllUniqueCommitters c10Api ([] ++ "https://h/o/r" :: []) (fun _ => none)
      = getAllUniqueCommitters c10Api ([] ++ []) (fun _ => none) :=
  c10_missing_token_silent_skip c10Api (fun _ => none) [] [] "https://h/o/r"
    ⟨"h", "/o/r"⟩ rfl rfl

end GhasOps
